import Mathlib

/-
  Verification development for the TileDB query core.

  The definitions below are a shallow embedding of the C++ sources:
  Keys (keys.cc), KVQuery (kv_query.cc), Query (query.cc) and the
  constants (constants.cc).  Machine integers are modelled as Nat with
  explicit reduction modulo 2^w where overflow matters; byte streams are
  lists of Nat (each entry one byte); fallible calls return a Status
  value mirroring the C++ Status class.
-/

namespace TileDB

/- Little-endian byte interpretation of a byte list. -/
def bytesToNatLE : List Nat → Nat
  | [] => 0
  | b :: rest => b % 256 + 256 * bytesToNatLE rest

/- The n little-endian bytes of a value (truncates modulo 2^(8n)). -/
def natToLEBytes : Nat → Nat → List Nat
  | 0, _ => []
  | n + 1, v => v % 256 :: natToLEBytes n (v / 256)

/- 32-bit modular addition. -/
def add32 (a b : Nat) : Nat := (a + b) % 4294967296

/- 32-bit complement (for arguments below 2^32). -/
def not32 (a : Nat) : Nat := a ^^^ 4294967295

/- 32-bit left rotation (for arguments below 2^32 and 0 < s < 32). -/
def rotl32 (x s : Nat) : Nat := (x * 2 ^ s + x / 2 ^ (32 - s)) % 4294967296

/-
  MD5 (RFC 1321).  Modelled from the spec: the spec states that key
  coordinates are 128-bit MD5 digests; the md5/md5.c implementation the
  code links against is not under src/, so the standard MD5 algorithm is
  embedded here over byte lists.
-/

def md5F (b c d : Nat) : Nat := (b &&& c) ||| (not32 b &&& d)

def md5G (b c d : Nat) : Nat := (b &&& d) ||| (c &&& not32 d)

def md5H (b c d : Nat) : Nat := b ^^^ c ^^^ d

def md5I (b c d : Nat) : Nat := c ^^^ (b ||| not32 d)

/- Per-round shift amounts. -/
def md5S : List Nat :=
  [7, 12, 17, 22, 7, 12, 17, 22, 7, 12, 17, 22, 7, 12, 17, 22,
   5, 9, 14, 20, 5, 9, 14, 20, 5, 9, 14, 20, 5, 9, 14, 20,
   4, 11, 16, 23, 4, 11, 16, 23, 4, 11, 16, 23, 4, 11, 16, 23,
   6, 10, 15, 21, 6, 10, 15, 21, 6, 10, 15, 21, 6, 10, 15, 21]

/- Per-round additive constants (floor(2^32 * abs(sin(i + 1)))). -/
def md5K : List Nat :=
  [0xd76aa478, 0xe8c7b756, 0x242070db, 0xc1bdceee,
   0xf57c0faf, 0x4787c62a, 0xa8304613, 0xfd469501,
   0x698098d8, 0x8b44f7af, 0xffff5bb1, 0x895cd7be,
   0x6b901122, 0xfd987193, 0xa679438e, 0x49b40821,
   0xf61e2562, 0xc040b340, 0x265e5a51, 0xe9b6c7aa,
   0xd62f105d, 0x02441453, 0xd8a1e681, 0xe7d3fbc8,
   0x21e1cde6, 0xc33707d6, 0xf4d50d87, 0x455a14ed,
   0xa9e3e905, 0xfcefa3f8, 0x676f02d9, 0x8d2a4c8a,
   0xfffa3942, 0x8771f681, 0x6d9d6122, 0xfde5380c,
   0xa4beea44, 0x4bdecfa9, 0xf6bb4b60, 0xbebfbc70,
   0x289b7ec6, 0xeaa127fa, 0xd4ef3085, 0x04881d05,
   0xd9d4d039, 0xe6db99e5, 0x1fa27cf8, 0xc4ac5665,
   0xf4292244, 0x432aff97, 0xab9423a7, 0xfc93a039,
   0x655b59c3, 0x8f0ccc92, 0xffeff47d, 0x85845dd1,
   0x6fa87e4f, 0xfe2ce6e0, 0xa3014314, 0x4e0811a1,
   0xf7537e82, 0xbd3af235, 0x2ad7d2bb, 0xeb86d391]

/- Message word j (little-endian) of a 64-byte chunk. -/
def chunkWord (chunk : List Nat) (j : Nat) : Nat :=
  bytesToNatLE ((chunk.drop (4 * j)).take 4)

/- One MD5 round applied to the running (a, b, c, d) state. -/
def md5Round (m : Nat → Nat) (st : Nat × Nat × Nat × Nat) (i : Nat) :
    Nat × Nat × Nat × Nat :=
  let a := st.1
  let b := st.2.1
  let c := st.2.2.1
  let d := st.2.2.2
  let f :=
    if i < 16 then md5F b c d
    else if i < 32 then md5G b c d
    else if i < 48 then md5H b c d
    else md5I b c d
  let g :=
    if i < 16 then i
    else if i < 32 then (5 * i + 1) % 16
    else if i < 48 then (3 * i + 5) % 16
    else (7 * i) % 16
  let sum := add32 (add32 a f) (add32 (md5K.getD i 0) (m g))
  (d, add32 b (rotl32 sum (md5S.getD i 0)), b, c)

/- Process one 64-byte chunk. -/
def md5Chunk (st : Nat × Nat × Nat × Nat) (chunk : List Nat) :
    Nat × Nat × Nat × Nat :=
  let r := (List.range 64).foldl (md5Round (chunkWord chunk)) st
  (add32 st.1 r.1, add32 st.2.1 r.2.1,
   add32 st.2.2.1 r.2.2.1, add32 st.2.2.2 r.2.2.2)

/- MD5 padding: 0x80, zeros to 56 mod 64, then the 64-bit LE bit count. -/
def md5Pad (msg : List Nat) : List Nat :=
  msg ++ [128] ++ List.replicate ((120 - (msg.length + 1) % 64) % 64) 0 ++
    natToLEBytes 8 (8 * msg.length)

/- Split a byte list into successive 64-byte chunks. -/
def chunks64 (l : List Nat) : List (List Nat) :=
  if h : l = [] then []
  else l.take 64 :: chunks64 (l.drop 64)
termination_by l.length
decreasing_by
  simp only [List.length_drop]
  have : 0 < l.length := List.length_pos.mpr h
  omega

/- The 16-byte MD5 digest of a byte message. -/
def md5 (msg : List Nat) : List Nat :=
  let fin := (chunks64 (md5Pad msg)).foldl md5Chunk
    (0x67452301, 0xefcdab89, 0x98badcfe, 0x10325476)
  natToLEBytes 4 fin.1 ++ natToLEBytes 4 fin.2.1 ++
    natToLEBytes 4 fin.2.2.1 ++ natToLEBytes 4 fin.2.2.2

/-
  Keys (keys.cc / keys.h): three parallel byte streams.  The offsets
  stream keys_ holds one uint64 per key (modelled as one Nat per key),
  keys_var_ holds the concatenated key value bytes, types_ holds one
  type tag byte per key (Datatype is written through an unsigned char
  view in kv_query.cc).
-/

structure Keys where
  key_num : Nat
  keys : List Nat
  keysVar : List Nat
  types : List Nat
deriving Repr, DecidableEq

def Keys.mkEmpty : Keys := ⟨0, [], [], []⟩

/- Keys::add_key: records the current keys_var_ size as the new key's
   offset, appends the value bytes and the type tag. -/
def Keys.add_key (k : Keys) (type : Nat) (bytes : List Nat) : Keys :=
  { key_num := k.key_num + 1
    keys := k.keys ++ [k.keysVar.length]
    keysVar := k.keysVar ++ bytes
    types := k.types ++ [type] }

/- One user key: a scalar type tag and the value bytes. -/
structure KeyInput where
  type : Nat
  bytes : List Nat
deriving Repr, DecidableEq

/- A Keys object built by successive Keys::add_key calls. -/
def Keys.ofList (kvs : List KeyInput) : Keys :=
  kvs.foldl (fun k kv => k.add_key kv.type kv.bytes) Keys.mkEmpty

/- Sum of the byte sizes of the first i keys of a batch. -/
def prefLen (kvs : List KeyInput) (i : Nat) : Nat :=
  ((kvs.take i).map (fun kv => kv.bytes.length)).sum

/-
  KVQuery (kv_query.cc).
-/

/- KVQuery::compute_coords key size derivation from the offsets
   stream: offset[i+1] - offset[i], or total size - offset[i] for the
   last key. -/
def keySizeAt (k : Keys) (i : Nat) : Nat :=
  if i ≠ k.key_num - 1 then k.keys.getD (i + 1) 0 - k.keys.getD i 0
  else k.keysVar.length - k.keys.getD i 0

/- The byte message hashed for key i in KVQuery::compute_coords:
   MD5Update with the type tag, the key size as a little-endian uint64,
   then the key bytes taken from keys_var_ at offset[i].  The byte
   count of the last update is passed as (unsigned int)key_size, so it
   is truncated modulo 2^32, while the 8-byte size field itself is the
   full uint64. -/
def coordsMsgAt (k : Keys) (i : Nat) : List Nat :=
  k.types.getD i 0 :: natToLEBytes 8 (keySizeAt k i) ++
    ((k.keysVar.drop (k.keys.getD i 0)).take (keySizeAt k i % 4294967296))

namespace KVQuery

/- KVQuery::compute_coords: the contents of the coordinates buffer,
   two uint64 dimensions per key, copied little-endian from each key's
   16-byte MD5 digest. -/
def compute_coords (k : Keys) : List Nat :=
  (List.range k.key_num).flatMap fun i =>
    [bytesToNatLE ((md5 (coordsMsgAt k i)).take 8),
     bytesToNatLE ((md5 (coordsMsgAt k i)).drop 8)]

end KVQuery

/- The coordinate pair the spec promises for a key: the 128-bit MD5
   digest of type_tag, size as a little-endian uint64, then the value
   bytes, read as two uint64 dimensions (d1, d2). -/
def specCoordOfKey (type : Nat) (bytes : List Nat) : Nat × Nat :=
  let digest := md5 (type :: natToLEBytes 8 bytes.length ++ bytes)
  (bytesToNatLE (digest.take 8), bytesToNatLE (digest.drop 8))

/-
  Constants (constants.cc).  The empty-cell sentinels carry the exact
  values of the <climits> / <cfloat> macros the source assigns
  (x86-64 Linux: char is signed, FLT_MAX and DBL_MAX are the largest
  finite binary32 / binary64 values, given here exactly as rationals).
-/

namespace constants

def name_max_len : Nat := 256

def coords : String := "__coords"

def key_attr_name : String := "__key"

def key_type_attr_name : String := "__key_type"

def key_dim_1 : String := "__key_dim_1"

def key_dim_2 : String := "__key_dim_2"

def empty_int32 : Int := 2147483647

def empty_int64 : Int := 9223372036854775807

def empty_char : Int := 127

def empty_int8 : Int := 127

def empty_uint8 : Int := 255

def empty_int16 : Int := 32767

def empty_uint16 : Int := 65535

def empty_uint32 : Int := 4294967295

def empty_uint64 : Int := 18446744073709551615

def empty_float32 : ℚ := (2 ^ 24 - 1) * 2 ^ 104

def empty_float64 : ℚ := (2 ^ 53 - 1) * 2 ^ 971

end constants

/- The largest value of a w-bit two's-complement signed integer. -/
def intTypeMax (w : Nat) : Int := 2 ^ (w - 1) - 1

/- The largest value of a w-bit unsigned integer. -/
def uintTypeMax (w : Nat) : Int := 2 ^ w - 1

/- The largest finite IEEE-754 binary32 value. -/
def float32TypeMax : ℚ := (2 - 1 / 2 ^ 23) * 2 ^ 127

/- The largest finite IEEE-754 binary64 value. -/
def float64TypeMax : ℚ := (2 - 1 / 2 ^ 52) * 2 ^ 1023

/-
  Query (query.cc).
-/

inductive QueryMode where
  | READ
  | READ_SORTED_COL
  | READ_SORTED_ROW
  | WRITE
  | WRITE_SORTED_COL
  | WRITE_SORTED_ROW
  | WRITE_UNSORTED
deriving DecidableEq, Repr

inductive QueryStatus where
  | FAILED
  | COMPLETED
  | INPROGRESS
  | OVERFLOWED
deriving DecidableEq, Repr

inductive QueryType where
  | READ
  | WRITE
deriving DecidableEq, Repr

inductive Layout where
  | ROW_MAJOR
  | COL_MAJOR
  | GLOBAL_ORDER
  | UNORDERED
deriving DecidableEq, Repr

/- Modelled from the spec: the query_mode helpers (query_mode.h is not
   under src/).  The read modes are READ and the two sorted reads; the
   write modes are WRITE, the two sorted writes and the unsorted
   write. -/
def is_read_mode (m : QueryMode) : Bool :=
  match m with
  | .READ => true
  | .READ_SORTED_COL => true
  | .READ_SORTED_ROW => true
  | _ => false

def is_write_mode (m : QueryMode) : Bool :=
  match m with
  | .WRITE => true
  | .WRITE_SORTED_COL => true
  | .WRITE_SORTED_ROW => true
  | .WRITE_UNSORTED => true
  | _ => false

/- The Status class: Ok or a typed error with a message. -/
inductive Status where
  | Ok
  | QueryError (msg : String)
  | KVQueryError (msg : String)
  | StorageManagerError (msg : String)
deriving DecidableEq, Repr

def Status.ok : Status → Bool
  | .Ok => true
  | _ => false

def Status.isQueryError : Status → Bool
  | .QueryError _ => true
  | _ => false

def Status.isKVQueryError : Status → Bool
  | .KVQueryError _ => true
  | _ => false

/- Modelled from the spec: the ArraySchema collaborator (array_schema
   sources are not under src/).  Only what Query consumes: the ordered
   attribute names, an order-preserving name-to-id lookup, per-id
   variable-size flags, the dense flag, the domain and the array URI. -/
structure ArraySchema where
  attributeNames : List String
  lookup : String → Option Nat
  varSize : Nat → Bool
  dense : Bool
  domain : List Nat
  arrayURI : String

/- A write-side fragment object held by a query: its name, whether it
   has been finalized, and how many write dispatches it received. -/
structure Fragment where
  name : String
  finalized : Bool
  writes : Nat
deriving DecidableEq, Repr

/- Per-submission environment: the host facts used for fragment naming
   (MAC address, thread id, millisecond timestamp) and the outcomes of
   the external collaborators (Fragment I/O, the sorted read and write
   states, ArrayReadState) whose sources are not under src/. -/
structure Env where
  mac : String
  tid : Nat
  ms : Nat
  fragmentInit : Status
  fragmentWrite : Status
  sortedWriteInit : Status
  sortedReadInit : Status
  sortedWriteStatus : Status
  sortedReadStatus : Status
  readStatus : Status
  readOverflowAfter : Bool
  sortedReadOverflowAfter : Bool

/- The Query object state: schema reference, mode, status, attribute
   ids, the subarray copy, the borrowed buffer sizes, the fragments the
   query currently holds, the fragments it has finalized and released,
   and the overflow flags of the read states (false at construction:
   nothing has been streamed yet). -/
structure QueryState where
  schema : ArraySchema
  mode : QueryMode
  status : QueryStatus
  attribute_ids : List Nat
  subarray : List Nat
  buffer_sizes : List Nat
  fragments : List Fragment
  finalizedFragments : List Fragment
  arsOverflow : Bool
  asrsOverflow : Bool

namespace Query

def set_status (q : QueryState) (s : QueryStatus) : QueryState :=
  { q with status := s }

def fragment_num (q : QueryState) : Nat := q.fragments.length

/- Query::new_fragment_name: sprintf of
   "<array_uri>/.__<mac><tid>_<ms>"; the empty string when the MAC
   address cannot be obtained. -/
def new_fragment_name (q : QueryState) (env : Env) : String :=
  if env.mac = "" then ""
  else q.schema.arrayURI ++ "/.__" ++ env.mac ++ toString env.tid ++ "_" ++
    toString env.ms

/- Query::new_fragment (init path): name the fragment, run
   Fragment::init, and push the fragment only on success. -/
def new_fragment (env : Env) (q : QueryState) : Status × QueryState :=
  let name := new_fragment_name q env
  if name = "" then (.QueryError "Cannot produce new fragment name", q)
  else if env.fragmentInit.ok then
    (.Ok, { q with fragments := q.fragments ++ [⟨name, false, 0⟩] })
  else (env.fragmentInit, q)

/- Query::open_fragments: one fragment per visible piece of fragment
   metadata, stopping at the first Fragment::init failure. -/
def open_fragments (env : Env) (q : QueryState) : List String → Status × QueryState
  | [] => (.Ok, q)
  | uri :: rest =>
      if env.fragmentInit.ok then
        open_fragments env { q with fragments := q.fragments ++ [⟨uri, false, 0⟩] } rest
      else (env.fragmentInit, q)

/- Query::init_fragments: WRITE creates the new fragment, read modes
   open the visible ones, the remaining write modes create nothing. -/
def init_fragments (env : Env) (q : QueryState) (metadata : List String) :
    Status × QueryState :=
  if q.mode = .WRITE then new_fragment env q
  else if is_read_mode q.mode then open_fragments env q metadata
  else (.Ok, q)

/- Query::init_states: only the sorted write and sorted read state
   constructors can fail. -/
def init_states (env : Env) (q : QueryState) : Status :=
  if q.mode = .WRITE_SORTED_COL ∨ q.mode = .WRITE_SORTED_ROW then
    env.sortedWriteInit
  else if q.mode = .READ_SORTED_COL ∨ q.mode = .READ_SORTED_ROW then
    env.sortedReadInit
  else .Ok

/- Modelled from the spec: utils::has_duplicates (utils.cc is not under
   src/): whether some name occurs twice in the list. -/
def has_duplicates : List String → Bool
  | [] => false
  | x :: xs => xs.contains x || has_duplicates xs

/- The per-name validity check of Query::set_attributes: a null
   pointer or a name longer than name_max_len is rejected. -/
def checkAttrName (a : Option String) : Option String :=
  match a with
  | none => none
  | some s => if s.length > constants.name_max_len then none else some s

/- The attribute-building loop of Query::set_attributes: validate the
   names one by one, stopping at the first null or over-long one. -/
def buildAttrVec : List (Option String) → Option (List String)
  | [] => some []
  | a :: rest =>
      match checkAttrName a with
      | none => none
      | some s =>
          match buildAttrVec rest with
          | none => none
          | some v => some (s :: v)

/- Modelled from the spec: name-to-id resolution over a lookup table,
   in order, failing on an unknown name. -/
def lookupIds (lookup : String → Option Nat) : List String → Option (List Nat)
  | [] => some []
  | s :: rest =>
      match lookup s, lookupIds lookup rest with
      | some i, some ids => some (i :: ids)
      | _, _ => none

/- Modelled from the spec: ArraySchema::get_attribute_ids maps each
   name to its id in order, failing on an unknown name. -/
def getAttributeIds (schema : ArraySchema) (names : List String) :
    Option (List Nat) :=
  lookupIds schema.lookup names

/- Query::set_attributes: the default list is the schema's attributes
   (minus coordinates for dense arrays outside WRITE_UNSORTED); a
   custom list is validated for null or over-long names and then for
   duplicates. -/
def set_attributes (schema : ArraySchema) (mode : QueryMode)
    (attributes : Option (List (Option String))) : Status × List Nat :=
  let vec : Status ⊕ List String :=
    match attributes with
    | none =>
        let v := schema.attributeNames
        .inr (if schema.dense = true ∧ mode ≠ QueryMode.WRITE_UNSORTED
              then v.dropLast else v)
    | some attrs =>
        match buildAttrVec attrs with
        | none => .inl (.QueryError "Invalid attribute name length")
        | some v =>
            if has_duplicates v then
              .inl (.QueryError
                "Cannot initialize array_schema; Duplicate attributes")
            else .inr v
  match vec with
  | .inl st => (st, [])
  | .inr v =>
      match getAttributeIds schema v with
      | none => (.QueryError "Invalid attribute", [])
      | some ids => (.Ok, ids)

/- Query::set_subarray: copy the given subarray, or the schema domain
   when none is given. -/
def set_subarray (schema : ArraySchema) (sub : Option (List Nat)) : List Nat :=
  match sub with
  | none => schema.domain
  | some s => s

/- Query::init (attribute-name overload): set members, then
   set_attributes, set_subarray, init_fragments and init_states, each
   short-circuiting on error. -/
def init (env : Env) (schema : ArraySchema) (metadata : List String)
    (mode : QueryMode) (sub : Option (List Nat))
    (attributes : Option (List (Option String)))
    (buffer_sizes : List Nat) : Status × QueryState :=
  let q0 : QueryState :=
    { schema := schema, mode := mode, status := .INPROGRESS,
      attribute_ids := [], subarray := [], buffer_sizes := buffer_sizes,
      fragments := [], finalizedFragments := [],
      arsOverflow := false, asrsOverflow := false }
  let res1 := set_attributes schema mode attributes
  if res1.1.ok then
    let q1 := { q0 with attribute_ids := res1.2,
                        subarray := set_subarray schema sub }
    let res2 := init_fragments env q1 metadata
    if res2.1.ok then (init_states env res2.2, res2.2)
    else res2
  else (res1.1, q0)

/- The empty-fragments size loop of Query::read: writes 0 into
   buffer_sizes_[buffer_i], then advances buffer_i by one slot for a
   fixed-size attribute and by two slots for a variable-sized one. -/
def zeroSizes (varSize : Nat → Bool) : List Nat → Nat → List Nat → List Nat
  | [], _, sizes => sizes
  | id :: rest, bi, sizes =>
      let sizes1 := sizes.set bi 0
      if varSize id then zeroSizes varSize rest (bi + 2) sizes1
      else zeroSizes varSize rest (bi + 1) sizes1

/- Query::read: with no fragments the sizes are zeroed and Ok is
   returned with no I/O; otherwise the read is delegated to the sorted
   read state or the array read state. -/
def read (env : Env) (q : QueryState) : Status × QueryState :=
  if q.fragments.isEmpty then
    (.Ok, { q with
      buffer_sizes := zeroSizes q.schema.varSize q.attribute_ids 0 q.buffer_sizes })
  else if q.mode = .READ_SORTED_COL ∨ q.mode = .READ_SORTED_ROW then
    (env.sortedReadStatus, { q with asrsOverflow := env.sortedReadOverflowAfter })
  else
    (env.readStatus, { q with arsOverflow := env.readOverflowAfter })

/- Query::clear_fragments: finalize every held fragment and release
   it. -/
def clear_fragments (q : QueryState) : QueryState :=
  { q with fragments := [],
           finalizedFragments := q.finalizedFragments ++
             q.fragments.map (fun f => { f with finalized := true }) }

/- The dispatch of a write to fragments_[0]. -/
def dispatchHead (q : QueryState) : QueryState :=
  { q with fragments :=
      match q.fragments with
      | [] => []
      | f :: rest => { f with writes := f.writes + 1 } :: rest }

/- Query::write_default: create and initialize a new fragment when the
   query holds none (the fragment is pushed before Fragment::init runs),
   then dispatch the write to fragments_[0]. -/
def write_default (env : Env) (q : QueryState) : Status × QueryState :=
  if ¬ is_write_mode q.mode then
    (.QueryError "Cannot write to array_schema; Invalid mode", q)
  else
    match q.fragments with
    | [] =>
        let name := new_fragment_name q env
        if name = "" then (.QueryError "Cannot produce new fragment name", q)
        else
          let q1 := { q with fragments := [⟨name, false, 0⟩] }
          if env.fragmentInit.ok then
            if env.fragmentWrite.ok then (.Ok, dispatchHead q1)
            else (env.fragmentWrite, q1)
          else (env.fragmentInit, q1)
    | _ :: _ =>
        if env.fragmentWrite.ok then (.Ok, dispatchHead q)
        else (env.fragmentWrite, q)

/- Query::write: sorted modes delegate to the sorted write state, WRITE
   and WRITE_UNSORTED go through write_default; in every mode except
   WRITE a successful submission then finalizes and releases the
   fragments. -/
def write (env : Env) (q : QueryState) : Status × QueryState :=
  let res : Status × QueryState :=
    if q.mode = .WRITE_SORTED_COL ∨ q.mode = .WRITE_SORTED_ROW then
      (env.sortedWriteStatus, q)
    else if q.mode = .WRITE ∨ q.mode = .WRITE_UNSORTED then
      write_default env q
    else (.QueryError "Invalid mode", q)
  if res.1.ok then
    if q.mode ≠ .WRITE then (.Ok, clear_fragments res.2)
    else (.Ok, res.2)
  else res

/- Query::overflow: false for writes; the sorted read state is
   consulted when it exists (the sorted read modes), else the array
   read state. -/
def overflow (q : QueryState) : Bool :=
  if ¬ is_read_mode q.mode then false
  else if q.mode = .READ_SORTED_COL ∨ q.mode = .READ_SORTED_ROW then
    q.asrsOverflow
  else q.arsOverflow

/- Query::async_process: run the read or write; on success the status
   becomes OVERFLOWED (read modes whose read state overflowed) or
   COMPLETED, on error it becomes FAILED; the operation status itself is
   returned. -/
def async_process (env : Env) (q : QueryState) : Status × QueryState :=
  let res := if is_read_mode q.mode then read env q else write env q
  if res.1.ok then
    if (res.2.mode = .READ ∧ res.2.arsOverflow = true) ∨
       ((res.2.mode = .READ_SORTED_COL ∨ res.2.mode = .READ_SORTED_ROW) ∧
        res.2.asrsOverflow = true) then
      (res.1, set_status res.2 .OVERFLOWED)
    else (res.1, set_status res.2 .COMPLETED)
  else (res.1, set_status res.2 .FAILED)

/- The overflow condition async_process tests, phrased on the
   post-operation state: the query is in a read mode and its read state
   reports overflow. -/
def readOverflowReported (q : QueryState) : Bool :=
  (q.mode = .READ ∧ q.arsOverflow = true) ∨
  ((q.mode = .READ_SORTED_COL ∨ q.mode = .READ_SORTED_ROW) ∧
   q.asrsOverflow = true)

/- A sequence of write submissions. -/
def submitRun (envs : List Env) (q : QueryState) : QueryState :=
  envs.foldl (fun s e => (write e s).2) q

end Query

/-
  KVQuery (kv_query.cc), continued: the attribute list and the
  read-side subarray.
-/

/- Modelled from the spec: the ArrayMetadata collaborator of the KV
   facade (array_metadata sources are not under src/): ordered
   attribute names and an order-preserving name-to-id lookup. -/
structure ArrayMetadata where
  attributeNames : List String
  lookup : String → Option Nat
  coordsSize : Nat

namespace KVQuery

/- The attributes_vec built by KVQuery::get_attribute_ids: a non-empty
   user list is taken as given, with the reserved __key, __key_type and
   __coords names added for a write; the default list is the metadata's
   names, with the last three (reserved) names popped for a read. -/
def attributes_vec (md : ArrayMetadata) (type : QueryType)
    (attributes : Option (List String)) : List String :=
  let dflt :=
    if type = .READ then md.attributeNames.dropLast.dropLast.dropLast
    else md.attributeNames
  match attributes with
  | some attrs =>
      if attrs ≠ [] then
        attrs ++ (if type = .WRITE then
          [constants.key_attr_name, constants.key_type_attr_name,
           constants.coords] else [])
      else dflt
  | none => dflt

/- KVQuery::get_attribute_ids: map the attribute name vector to ids. -/
def get_attribute_ids (md : ArrayMetadata) (type : QueryType)
    (attributes : Option (List String)) : Option (List Nat) :=
  Query.lookupIds md.lookup (attributes_vec md type attributes)

/- KVQuery::compute_subarray: requires exactly one key; hashes the
   type tag, the total variable size as a little-endian uint64 and the
   key bytes, and stores the degenerate rectangle d1, d1, d2, d2.  The
   byte count of the last update is passed as
   (unsigned int)keys_var_size, so it is truncated modulo 2^32, while
   the 8-byte size field itself is the full uint64. -/
def compute_subarray (k : Keys) : Status × List Nat :=
  if k.key_num ≠ 1 then
    (.KVQueryError "Cannot compute subarray; More than one keys provided", [])
  else
    let digest := md5 (k.types.getD 0 0 ::
      natToLEBytes 8 k.keysVar.length ++
      k.keysVar.take (k.keysVar.length % 4294967296))
    let d1 := bytesToNatLE (digest.take 8)
    let d2 := bytesToNatLE (digest.drop 8)
    (.Ok, [d1, d1, d2, d2])

/- What a successful KVQuery::init forwards to Query::init: the layout,
   the subarray (reads only) and the attribute ids. -/
structure KVInitResult where
  layout : Layout
  subarray : Option (List Nat)
  attribute_ids : List Nat
deriving DecidableEq, Repr

/- KVQuery::init: UNORDERED layout for writes and GLOBAL_ORDER for
   reads; get_attribute_ids, set_buffers, then (reads) compute_subarray,
   each short-circuiting, and finally the underlying Query::init.  A
   returned result means the underlying array query was initialized
   with exactly these arguments. -/
def init (md : ArrayMetadata) (type : QueryType) (keys : Keys)
    (attributes : Option (List String)) : Status × Option KVInitResult :=
  let layout := if type = .WRITE then Layout.UNORDERED else Layout.GLOBAL_ORDER
  match get_attribute_ids md type attributes with
  | none => (.KVQueryError "Invalid attributes", none)
  | some ids =>
      if type = .READ then
        match compute_subarray keys with
        | (Status.Ok, sub) => (.Ok, some ⟨layout, some sub, ids⟩)
        | (st, _) => (st, none)
      else (.Ok, some ⟨layout, none, ids⟩)

end KVQuery

/-
  Concrete fixtures used by witnesses and counterexamples.
-/

def schemaA : ArraySchema :=
  { attributeNames := ["a1"]
    lookup := fun s => if s = "a1" then some 0 else none
    varSize := fun _ => false
    dense := false
    domain := []
    arrayURI := "file://arr" }

def schemaVar : ArraySchema :=
  { attributeNames := ["a1"]
    lookup := fun s => if s = "a1" then some 0 else none
    varSize := fun _ => true
    dense := false
    domain := []
    arrayURI := "file://arr" }

def mdA : ArrayMetadata :=
  { attributeNames := ["a1", "__key", "__key_type", "__coords"]
    lookup := fun s =>
      if s = "a1" then some 0
      else if s = "__key" then some 1
      else if s = "__key_type" then some 2
      else if s = "__coords" then some 3
      else none
    coordsSize := 16 }

def envOk : Env :=
  { mac := "aabbcc", tid := 7, ms := 123
    fragmentInit := .Ok, fragmentWrite := .Ok
    sortedWriteInit := .Ok, sortedReadInit := .Ok
    sortedWriteStatus := .Ok, sortedReadStatus := .Ok, readStatus := .Ok
    readOverflowAfter := false, sortedReadOverflowAfter := false }

def envNoMac : Env :=
  { envOk with mac := "" }

def qReadEmptyVar : QueryState :=
  { schema := schemaVar, mode := .READ, status := .INPROGRESS
    attribute_ids := [0], subarray := [], buffer_sizes := [7, 9]
    fragments := [], finalizedFragments := []
    arsOverflow := false, asrsOverflow := false }

def qUnsortedOne : QueryState :=
  { schema := schemaA, mode := .WRITE_UNSORTED, status := .INPROGRESS
    attribute_ids := [0], subarray := [], buffer_sizes := [4]
    fragments := [⟨"f1", false, 0⟩], finalizedFragments := []
    arsOverflow := false, asrsOverflow := false }

/-
  Theorems.  General list lemmas first, then the Keys characterization,
  then the claims.
-/

theorem getD_map_lt {α β : Type} (f : α → β) (l : List α) (i : Nat) (d : β)
    (h : i < l.length) : (l.map f).getD i d = f l[i] := by
  rw [List.getD_eq_getElem?_getD, List.getElem?_map,
    List.getElem?_eq_getElem h]
  rfl

theorem getD_map_range (f : Nat → Nat) (n i : Nat) (h : i < n) :
    ((List.range n).map f).getD i 0 = f i := by
  rw [getD_map_lt f (List.range n) i 0 (by simpa using h),
    List.getElem_range i (by simpa using h)]

theorem prefLen_cons_succ (kv : KeyInput) (rest : List KeyInput) (i : Nat) :
    prefLen (kv :: rest) (i + 1) = kv.bytes.length + prefLen rest i := by
  unfold prefLen
  rw [List.take_succ_cons]
  simp

theorem prefLen_succ (kvs : List KeyInput) (i : Nat) (h : i < kvs.length) :
    prefLen kvs (i + 1) = prefLen kvs i + kvs[i].bytes.length := by
  unfold prefLen
  rw [List.take_succ, List.getElem?_eq_getElem h, List.map_append,
    List.sum_append]
  rfl

theorem prefLen_full (kvs : List KeyInput) :
    prefLen kvs kvs.length = ((kvs.map fun kv => kv.bytes.length)).sum := by
  unfold prefLen
  rw [List.take_length]

theorem foldl_add_key (kvs : List KeyInput) : ∀ k : Keys,
    kvs.foldl (fun a kv => a.add_key kv.type kv.bytes) k =
      { key_num := k.key_num + kvs.length
        keys := k.keys ++ (List.range kvs.length).map
          (fun i => k.keysVar.length + prefLen kvs i)
        keysVar := k.keysVar ++ (kvs.map fun kv => kv.bytes).flatten
        types := k.types ++ kvs.map fun kv => kv.type } := by
  induction kvs with
  | nil => intro k; simp [prefLen]
  | cons kv rest ih =>
      intro k
      have hhead : k.keysVar.length = k.keysVar.length + prefLen (kv :: rest) 0 := by
        simp [prefLen]
      have htail : (List.range rest.length).map
            (fun i => (k.keysVar ++ kv.bytes).length + prefLen rest i) =
          (List.range rest.length).map
            ((fun i => k.keysVar.length + prefLen (kv :: rest) i) ∘ Nat.succ) := by
        refine List.map_congr_left ?_
        intro i _
        simp only [Function.comp_apply, prefLen_cons_succ,
          List.length_append]
        omega
      have hkeys : (k.keys ++ [k.keysVar.length]) ++
          (List.range rest.length).map
            (fun i => (k.keysVar ++ kv.bytes).length + prefLen rest i) =
          k.keys ++ (List.range (rest.length + 1)).map
            (fun i => k.keysVar.length + prefLen (kv :: rest) i) := by
        rw [List.range_succ_eq_map, List.map_cons, List.map_map,
          List.append_assoc, List.singleton_append, ← hhead, ← htail]
      rw [List.foldl_cons, ih]
      simp only [Keys.add_key, Keys.mk.injEq, List.length_cons,
        List.map_cons, List.flatten_cons]
      refine ⟨by omega, hkeys, by simp, by simp⟩

theorem ofList_key_num (kvs : List KeyInput) :
    (Keys.ofList kvs).key_num = kvs.length := by
  unfold Keys.ofList
  rw [foldl_add_key kvs Keys.mkEmpty]
  simp [Keys.mkEmpty]

theorem ofList_keys (kvs : List KeyInput) :
    (Keys.ofList kvs).keys = (List.range kvs.length).map (prefLen kvs) := by
  unfold Keys.ofList
  rw [foldl_add_key kvs Keys.mkEmpty]
  simp [Keys.mkEmpty]

theorem ofList_keysVar (kvs : List KeyInput) :
    (Keys.ofList kvs).keysVar = (kvs.map fun kv => kv.bytes).flatten := by
  unfold Keys.ofList
  rw [foldl_add_key kvs Keys.mkEmpty]
  simp [Keys.mkEmpty]

theorem ofList_types (kvs : List KeyInput) :
    (Keys.ofList kvs).types = kvs.map fun kv => kv.type := by
  unfold Keys.ofList
  rw [foldl_add_key kvs Keys.mkEmpty]
  simp [Keys.mkEmpty]

theorem flatten_slice (kvs : List KeyInput) : ∀ (i : Nat) (h : i < kvs.length),
    (((kvs.map fun kv => kv.bytes).flatten).drop (prefLen kvs i)).take
      kvs[i].bytes.length = kvs[i].bytes := by
  induction kvs with
  | nil => intro i h; exact absurd h (by simp)
  | cons kv rest ih =>
      intro i h
      match i with
      | 0 =>
          simp only [List.map_cons, List.flatten_cons, List.getElem_cons_zero]
          show ((kv.bytes ++ _).drop (prefLen (kv :: rest) 0)).take _ = _
          have h0 : prefLen (kv :: rest) 0 = 0 := by simp [prefLen]
          rw [h0, List.drop_zero, List.take_left]
      | Nat.succ j =>
          have hj : j < rest.length := by simpa using h
          simp only [List.map_cons, List.flatten_cons, List.getElem_cons_succ]
          rw [prefLen_cons_succ, List.drop_append]
          exact ih j hj

theorem ofList_keysVar_length (kvs : List KeyInput) :
    (Keys.ofList kvs).keysVar.length = prefLen kvs kvs.length := by
  rw [ofList_keysVar, List.length_flatten, prefLen_full, List.map_map]
  rfl

theorem ofList_keys_getD (kvs : List KeyInput) (i : Nat) (h : i < kvs.length) :
    (Keys.ofList kvs).keys.getD i 0 = prefLen kvs i := by
  rw [ofList_keys, getD_map_range _ _ _ h]

theorem ofList_keySizeAt (kvs : List KeyInput) (i : Nat) (h : i < kvs.length) :
    keySizeAt (Keys.ofList kvs) i = kvs[i].bytes.length := by
  unfold keySizeAt
  rw [ofList_key_num]
  by_cases hl : i ≠ kvs.length - 1
  · have h1 : i + 1 < kvs.length := by omega
    rw [if_pos hl, ofList_keys, getD_map_range _ _ _ h1,
      getD_map_range _ _ _ h, prefLen_succ kvs i h]
    omega
  · push_neg at hl
    rw [if_neg (by omega)]
    rw [ofList_keys_getD kvs i h, ofList_keysVar_length]
    have hstep := prefLen_succ kvs i h
    have hip : i + 1 = kvs.length := by omega
    rw [hip] at hstep
    omega

theorem coordsMsgAt_ofList (kvs : List KeyInput) (i : Nat)
    (h : i < kvs.length) (hsz : kvs[i].bytes.length < 4294967296) :
    coordsMsgAt (Keys.ofList kvs) i =
      kvs[i].type :: natToLEBytes 8 kvs[i].bytes.length ++ kvs[i].bytes := by
  unfold coordsMsgAt
  rw [ofList_keySizeAt kvs i h, ofList_types, ofList_keys_getD kvs i h,
    getD_map_lt _ _ _ _ h, ofList_keysVar, Nat.mod_eq_of_lt hsz,
    flatten_slice kvs i h]

theorem flatMapPair_length (f g : Nat → Nat) (n : Nat) :
    ((List.range n).flatMap fun j => [f j, g j]).length = 2 * n := by
  induction n with
  | zero => rfl
  | succ m ih =>
      rw [List.range_succ, List.flatMap_append, List.length_append, ih]
      simp
      omega

theorem flatMapPair_getD (f g : Nat → Nat) (n : Nat) : ∀ (i : Nat), i < n →
    ((((List.range n).flatMap fun j => [f j, g j]).getD (2 * i) 0 = f i) ∧
     (((List.range n).flatMap fun j => [f j, g j]).getD (2 * i + 1) 0 = g i)) := by
  induction n with
  | zero => intro i h; omega
  | succ m ih =>
      intro i h
      rw [List.range_succ, List.flatMap_append]
      have hlen : ((List.range m).flatMap fun j => [f j, g j]).length = 2 * m :=
        flatMapPair_length f g m
      by_cases hi : i < m
      · obtain ⟨h1, h2⟩ := ih i hi
        constructor
        · rw [List.getD_append _ _ _ _ (by omega)]
          exact h1
        · rw [List.getD_append _ _ _ _ (by omega)]
          exact h2
      · have hieq : i = m := by omega
        subst hieq
        constructor
        · rw [List.getD_append_right _ _ _ _ (by omega), hlen]
          simp
        · rw [List.getD_append_right _ _ _ _ (by omega), hlen]
          have : 2 * i + 1 - 2 * i = 1 := by omega
          rw [this]
          simp

/-- C1: for every key batch given to a KV query and every index i in the
batch whose key is smaller than 2^32 bytes (MD5Update receives the byte
count as an unsigned int, so larger keys are hashed with a wrapped
count), the coordinate computed for key i equals the 128-bit MD5 digest
of the key's type tag, its byte size as a little-endian uint64 (derived
from the offsets stream) and its value bytes, stored as two consecutive
uint64 dimensions d1 and d2 in the coordinates buffer. -/
theorem kv_compute_coords_is_md5 (kvs : List KeyInput) (i : Nat)
    (h : i < kvs.length) (hsz : kvs[i].bytes.length < 4294967296) :
    (KVQuery.compute_coords (Keys.ofList kvs)).getD (2 * i) 0 =
      (specCoordOfKey kvs[i].type kvs[i].bytes).1 ∧
    (KVQuery.compute_coords (Keys.ofList kvs)).getD (2 * i + 1) 0 =
      (specCoordOfKey kvs[i].type kvs[i].bytes).2 := by
  unfold KVQuery.compute_coords
  rw [ofList_key_num]
  obtain ⟨h1, h2⟩ := flatMapPair_getD
    (fun j => bytesToNatLE ((md5 (coordsMsgAt (Keys.ofList kvs) j)).take 8))
    (fun j => bytesToNatLE ((md5 (coordsMsgAt (Keys.ofList kvs) j)).drop 8))
    kvs.length i h
  refine ⟨?_, ?_⟩
  · rw [h1, coordsMsgAt_ofList kvs i h hsz]
    rfl
  · rw [h2, coordsMsgAt_ofList kvs i h hsz]
    rfl

/-- Witness for C1 at a concrete two-key batch. -/
theorem kv_compute_coords_is_md5_witness :
    1 < ([⟨3, [65]⟩, ⟨5, [66, 67]⟩] : List KeyInput).length ∧
    (([⟨3, [65]⟩, ⟨5, [66, 67]⟩] : List KeyInput)[1].bytes.length
      < 4294967296) ∧
    (KVQuery.compute_coords
        (Keys.ofList [⟨3, [65]⟩, ⟨5, [66, 67]⟩])).getD 2 0 =
      (specCoordOfKey 5 [66, 67]).1 :=
  ⟨by decide, by decide, (kv_compute_coords_is_md5 [⟨3, [65]⟩, ⟨5, [66, 67]⟩] 1
    (by decide) (by decide)).1⟩

/-- C9: every scalar datatype's empty-cell sentinel equals that type's
maximum representable value: INT_MAX, INT64_MAX, CHAR_MAX, INT8_MAX,
INT16_MAX, UINT8_MAX, UINT16_MAX, UINT32_MAX, UINT64_MAX, FLT_MAX and
DBL_MAX respectively. -/
theorem empty_values_are_type_max :
    constants.empty_int32 = intTypeMax 32 ∧
    constants.empty_int64 = intTypeMax 64 ∧
    constants.empty_char = intTypeMax 8 ∧
    constants.empty_int8 = intTypeMax 8 ∧
    constants.empty_int16 = intTypeMax 16 ∧
    constants.empty_uint8 = uintTypeMax 8 ∧
    constants.empty_uint16 = uintTypeMax 16 ∧
    constants.empty_uint32 = uintTypeMax 32 ∧
    constants.empty_uint64 = uintTypeMax 64 ∧
    constants.empty_float32 = float32TypeMax ∧
    constants.empty_float64 = float64TypeMax := by
  refine ⟨by decide, by decide, by decide, by decide, by decide, by decide,
    by decide, by decide, by decide, ?_, ?_⟩
  · show ((2 : ℚ) ^ 24 - 1) * 2 ^ 104 = (2 - 1 / 2 ^ 23) * 2 ^ 127
    norm_num
  · show ((2 : ℚ) ^ 53 - 1) * 2 ^ 971 = (2 - 1 / 2 ^ 52) * 2 ^ 1023
    norm_num

/-- C4 counterexample: for the user attribute list consisting of a1
alone, the attribute vector forwarded for a KV write is the user
attribute followed by the reserved attributes, not the reserved
attributes followed by the user attribute as the claim states. -/
theorem kv_write_attributes_not_prepended :
    KVQuery.attributes_vec mdA QueryType.WRITE (some ["a1"]) =
      ["a1", "__key", "__key_type", "__coords"] ∧
    KVQuery.attributes_vec mdA QueryType.WRITE (some ["a1"]) ≠
      ["__key", "__key_type", "__coords", "a1"] := by
  constructor
  · rfl
  · decide

/-- C4 (amended): for every KV write query initialized with a non-empty
user attribute list, the attribute vector forwarded to the underlying
array write query is the user's attributes with the three reserved
attributes __key, __key_type and __coords appended after them, in that
order. -/
theorem kv_write_attributes_appended (md : ArrayMetadata)
    (attrs : List String) (h : attrs ≠ []) :
    KVQuery.attributes_vec md QueryType.WRITE (some attrs) =
      attrs ++ [constants.key_attr_name, constants.key_type_attr_name,
        constants.coords] := by
  unfold KVQuery.attributes_vec
  simp [h]

/-- Witness for C4 (amended) at a concrete attribute list. -/
theorem kv_write_attributes_appended_witness :
    (["a1"] : List String) ≠ [] ∧
    KVQuery.attributes_vec mdA QueryType.WRITE (some ["a1"]) =
      ["a1"] ++ [constants.key_attr_name, constants.key_type_attr_name,
        constants.coords] :=
  ⟨by decide, kv_write_attributes_appended mdA ["a1"] (by decide)⟩

/-- C5: a KV read over a single-key key set whose key is smaller than
2^32 bytes (MD5Update receives the byte count as an unsigned int, so
larger keys are hashed with a wrapped count) submits the underlying
array query with global-order layout and the degenerate subarray
d1, d1, d2, d2 built from the key's MD5 digest halves; a key set with
more than one key makes init return a KVQueryError without initializing
the underlying query. -/
theorem kv_point_read (md : ArrayMetadata) (attributes : Option (List String))
    (ids : List Nat)
    (hids : KVQuery.get_attribute_ids md QueryType.READ attributes = some ids) :
    (∀ kv : KeyInput, kv.bytes.length < 4294967296 →
      KVQuery.init md QueryType.READ (Keys.ofList [kv]) attributes =
        (Status.Ok, some ⟨Layout.GLOBAL_ORDER,
          some [(specCoordOfKey kv.type kv.bytes).1,
                (specCoordOfKey kv.type kv.bytes).1,
                (specCoordOfKey kv.type kv.bytes).2,
                (specCoordOfKey kv.type kv.bytes).2], ids⟩)) ∧
    (∀ keys : Keys, 1 < keys.key_num →
      (KVQuery.init md QueryType.READ keys attributes).1.isKVQueryError = true ∧
      (KVQuery.init md QueryType.READ keys attributes).2 = none) := by
  constructor
  · intro kv hkv
    unfold KVQuery.init
    rw [hids]
    have hsub : KVQuery.compute_subarray (Keys.ofList [kv]) =
        (Status.Ok, [(specCoordOfKey kv.type kv.bytes).1,
          (specCoordOfKey kv.type kv.bytes).1,
          (specCoordOfKey kv.type kv.bytes).2,
          (specCoordOfKey kv.type kv.bytes).2]) := by
      unfold KVQuery.compute_subarray
      rw [if_neg (by rw [ofList_key_num]; simp)]
      have hvar : (Keys.ofList [kv]).keysVar = kv.bytes := by
        simp [Keys.ofList, Keys.add_key, Keys.mkEmpty]
      have htyp : (Keys.ofList [kv]).types = [kv.type] := by
        simp [Keys.ofList, Keys.add_key, Keys.mkEmpty]
      rw [hvar, htyp, Nat.mod_eq_of_lt hkv, List.take_length]
      show (Status.Ok,
        [bytesToNatLE ((md5 (([kv.type] : List Nat).getD 0 0 ::
            natToLEBytes 8 kv.bytes.length ++ kv.bytes)).take 8), _, _, _]) = _
      simp only [List.getD, specCoordOfKey]
      rfl
    rw [hsub]
    rfl
  · intro keys hk
    unfold KVQuery.init
    rw [hids]
    have hsub : KVQuery.compute_subarray keys =
        (Status.KVQueryError
          "Cannot compute subarray; More than one keys provided", []) := by
      unfold KVQuery.compute_subarray
      rw [if_pos (by omega)]
    rw [hsub]
    exact ⟨rfl, rfl⟩

/-- Witness for C5 at a concrete metadata, attribute list and key. -/
theorem kv_point_read_witness :
    KVQuery.get_attribute_ids mdA QueryType.READ (some ["a1"]) = some [0] ∧
    (([65] : List Nat).length < 4294967296) ∧
    KVQuery.init mdA QueryType.READ (Keys.ofList [⟨3, [65]⟩]) (some ["a1"]) =
      (Status.Ok, some ⟨Layout.GLOBAL_ORDER,
        some [(specCoordOfKey 3 [65]).1, (specCoordOfKey 3 [65]).1,
              (specCoordOfKey 3 [65]).2, (specCoordOfKey 3 [65]).2], [0]⟩) :=
  ⟨rfl, by decide,
   (kv_point_read mdA (some ["a1"]) [0] rfl).1 ⟨3, [65]⟩ (by decide)⟩

theorem read_mode_eq (env : Env) (q : QueryState) :
    (Query.read env q).2.mode = q.mode := by
  unfold Query.read
  by_cases h1 : q.fragments.isEmpty <;>
    by_cases h2 : q.mode = .READ_SORTED_COL ∨ q.mode = .READ_SORTED_ROW <;>
      simp [h1, h2]

theorem dispatchHead_mode (q : QueryState) :
    (Query.dispatchHead q).mode = q.mode := rfl

theorem clear_fragments_mode (q : QueryState) :
    (Query.clear_fragments q).mode = q.mode := rfl

theorem write_default_mode (env : Env) (q : QueryState) :
    (Query.write_default env q).2.mode = q.mode := by
  unfold Query.write_default
  by_cases hw : is_write_mode q.mode
  · simp only [hw]
    cases hf : q.fragments with
    | nil =>
        by_cases hn : Query.new_fragment_name q env = "" <;>
          by_cases hi : env.fragmentInit.ok <;>
            by_cases hfr : env.fragmentWrite.ok <;>
              simp [hn, hi, hfr, Query.dispatchHead]
    | cons f rest =>
        by_cases hfr : env.fragmentWrite.ok <;>
          simp [hfr, Query.dispatchHead]
  · simp [hw]

theorem status_ok_queryError (msg : String) :
    (Status.QueryError msg).ok = false := rfl

theorem status_ok_kvQueryError (msg : String) :
    (Status.KVQueryError msg).ok = false := rfl

theorem write_mode_eq (env : Env) (q : QueryState) :
    (Query.write env q).2.mode = q.mode := by
  unfold Query.write
  rcases hm : q.mode <;>
    by_cases hok1 : env.sortedWriteStatus.ok <;>
      by_cases hok2 : (Query.write_default env q).1.ok <;>
        simp [hm, hok1, hok2, Query.clear_fragments, write_default_mode,
          status_ok_queryError]

theorem overflow_iff_cond (s : QueryState) :
    Query.overflow s = true ↔
      ((s.mode = .READ ∧ s.arsOverflow = true) ∨
       ((s.mode = .READ_SORTED_COL ∨ s.mode = .READ_SORTED_ROW) ∧
        s.asrsOverflow = true)) := by
  unfold Query.overflow
  rcases hm : s.mode <;> simp [hm, is_read_mode]

theorem not_read_of_write (m : QueryMode) (h : is_write_mode m = true) :
    m ≠ .READ ∧ m ≠ .READ_SORTED_COL ∧ m ≠ .READ_SORTED_ROW := by
  cases m <;> simp_all [is_write_mode]

/-- C2: every query submission ends with status COMPLETED, OVERFLOWED or
FAILED; the status is FAILED exactly when the underlying read or write
returned an error; on success the status is OVERFLOWED exactly when the
query is in a read mode whose read state reports overflow (never for a
write-mode query), and OVERFLOWED comes with a successful return, not an
error. -/
theorem submit_status_trichotomy (env : Env) (q : QueryState) (st : Status)
    (q1 : QueryState) (h : Query.async_process env q = (st, q1)) :
    (q1.status = .COMPLETED ∨ q1.status = .OVERFLOWED ∨ q1.status = .FAILED) ∧
    (q1.status = .FAILED ↔ st.ok = false) ∧
    (st.ok = true → (q1.status = .OVERFLOWED ↔ Query.overflow q1 = true)) ∧
    (is_write_mode q.mode = true → q1.status ≠ .OVERFLOWED) := by
  unfold Query.async_process at h
  set res := (if is_read_mode q.mode then Query.read env q else Query.write env q)
    with hres
  have hmode : res.2.mode = q.mode := by
    rw [hres]
    by_cases hr : is_read_mode q.mode <;>
      simp [hr, read_mode_eq, write_mode_eq]
  by_cases hok : res.1.ok
  · rw [if_pos hok] at h
    by_cases hov : ((res.2.mode = .READ ∧ res.2.arsOverflow = true) ∨
        ((res.2.mode = .READ_SORTED_COL ∨ res.2.mode = .READ_SORTED_ROW) ∧
         res.2.asrsOverflow = true))
    · rw [if_pos hov] at h
      injection h with h1 h2
      subst h1
      subst h2
      refine ⟨Or.inr (Or.inl rfl), by simp [Query.set_status, hok], ?_, ?_⟩
      · intro _
        have heq : Query.overflow (Query.set_status res.2 .OVERFLOWED) =
            Query.overflow res.2 := rfl
        rw [heq, overflow_iff_cond]
        exact iff_of_true rfl hov
      · intro hw
        obtain ⟨n1, n2, n3⟩ := not_read_of_write q.mode hw
        rw [hmode] at hov
        rcases hov with ⟨hm, _⟩ | ⟨hm | hm, _⟩
        · exact absurd hm n1
        · exact absurd hm n2
        · exact absurd hm n3
    · rw [if_neg hov] at h
      injection h with h1 h2
      subst h1
      subst h2
      refine ⟨Or.inl rfl, by simp [Query.set_status, hok], ?_, by simp [Query.set_status]⟩
      intro _
      have : Query.overflow (Query.set_status res.2 .COMPLETED) =
          Query.overflow res.2 := rfl
      rw [this]
      constructor
      · intro hc
        exact absurd hc (by simp [Query.set_status])
      · intro hc
        rw [overflow_iff_cond] at hc
        exact absurd hc hov
  · rw [if_neg hok] at h
    injection h with h1 h2
    subst h1
    subst h2
    refine ⟨Or.inr (Or.inr rfl), by simpa [Query.set_status] using hok, ?_,
      by simp [Query.set_status]⟩
    intro hc
    rw [Bool.not_eq_true] at hok
    rw [hc] at hok
    exact absurd hok (by simp)

/-- Witness for C2 at a concrete unsorted-write submission. -/
theorem submit_status_trichotomy_witness :
    Query.async_process envOk qUnsortedOne =
      (Status.Ok, Query.set_status
        (Query.clear_fragments (Query.dispatchHead qUnsortedOne))
        QueryStatus.COMPLETED) ∧
    (Query.set_status (Query.clear_fragments (Query.dispatchHead qUnsortedOne))
      QueryStatus.COMPLETED).status ≠ QueryStatus.OVERFLOWED :=
  ⟨rfl, (submit_status_trichotomy envOk qUnsortedOne _ _ rfl).2.2.2 rfl⟩

/-- C10: with no visible fragments a READ submission succeeds with
status COMPLETED, but the size-zeroing loop updates only the first size
slot of the variable-sized attribute: the offsets-buffer size becomes 0
while the values-buffer size keeps its old value 9 instead of 0. -/
theorem read_empty_fragments_var_values_size_kept :
    (Query.async_process envOk qReadEmptyVar).1 = Status.Ok ∧
    (Query.async_process envOk qReadEmptyVar).2.status =
      QueryStatus.COMPLETED ∧
    (Query.async_process envOk qReadEmptyVar).2.buffer_sizes = [0, 9] ∧
    (Query.async_process envOk qReadEmptyVar).2.buffer_sizes.getD 1 0 ≠ 0 := by
  refine ⟨rfl, rfl, rfl, by decide⟩

theorem status_isQueryError_true (msg : String) :
    (Status.QueryError msg).isQueryError = true := rfl

/-- C7: the generated fragment name is
array_uri, then the separator slash-dot-underscore-underscore, then the
MAC address, the thread id and the millisecond timestamp; when the MAC
address cannot be obtained the name is the empty string, new_fragment
fails with a QueryError and the write is rejected with no fragment
created. -/
theorem fragment_name_format (env : Env) (q : QueryState) :
    (env.mac ≠ "" →
      Query.new_fragment_name q env =
        q.schema.arrayURI ++ "/.__" ++ env.mac ++ toString env.tid ++ "_" ++
          toString env.ms) ∧
    (env.mac = "" →
      Query.new_fragment_name q env = "" ∧
      (Query.new_fragment env q).1.isQueryError = true ∧
      (Query.new_fragment env q).2 = q ∧
      (is_write_mode q.mode = true → q.fragments = [] →
        (Query.write_default env q).1.isQueryError = true ∧
        (Query.write_default env q).2 = q)) := by
  constructor
  · intro h
    unfold Query.new_fragment_name
    rw [if_neg h]
  · intro h
    have hname : Query.new_fragment_name q env = "" := by
      unfold Query.new_fragment_name
      rw [if_pos h]
    refine ⟨hname, ?_, ?_, ?_⟩
    · unfold Query.new_fragment
      simp [hname, status_isQueryError_true]
    · unfold Query.new_fragment
      simp [hname]
    · intro hw hf
      unfold Query.write_default
      simp [hw, hf, hname, status_isQueryError_true]

/-- Witness for C7 at a concrete environment and query state. -/
theorem fragment_name_format_witness :
    (envOk.mac ≠ "") ∧
    Query.new_fragment_name qUnsortedOne envOk =
      qUnsortedOne.schema.arrayURI ++ "/.__" ++ envOk.mac ++
        toString envOk.tid ++ "_" ++ toString envOk.ms :=
  ⟨by decide, (fragment_name_format envOk qUnsortedOne).1 (by decide)⟩

theorem buildAttrVec_some (attrs : List (Option String)) : ∀ v,
    Query.buildAttrVec attrs = some v →
    v = attrs.map (fun a => a.getD "") ∧
    ∀ a ∈ attrs, ∃ s, a = some s ∧ s.length ≤ constants.name_max_len := by
  induction attrs with
  | nil =>
      intro v h
      unfold Query.buildAttrVec at h
      injection h with h
      subst h
      simp
  | cons a rest ih =>
      intro v h
      unfold Query.buildAttrVec at h
      cases ha : Query.checkAttrName a with
      | none => rw [ha] at h; exact absurd h (by simp)
      | some s =>
          rw [ha] at h
          cases hr : Query.buildAttrVec rest with
          | none => rw [hr] at h; exact absurd h (by simp)
          | some v2 =>
              rw [hr] at h
              injection h with h
              subst h
              obtain ⟨hv2, hall⟩ := ih v2 hr
              have haa : a = some s ∧ s.length ≤ constants.name_max_len := by
                cases a with
                | none => simp [Query.checkAttrName] at ha
                | some t =>
                    simp only [Query.checkAttrName] at ha
                    by_cases hl : t.length > constants.name_max_len
                    · rw [if_pos hl] at ha
                      exact absurd ha (by simp)
                    · rw [if_neg hl] at ha
                      injection ha with ha
                      subst ha
                      exact ⟨rfl, by omega⟩
              constructor
              · rw [hv2, List.map_cons, haa.1]
                rfl
              · intro x hx
                rcases List.mem_cons.mp hx with rfl | hxr
                · exact ⟨s, haa.1, haa.2⟩
                · exact hall x hxr

/-- C8: Query::init rejects a custom attribute list that contains a null
name, a name longer than name_max_len (256), or duplicate names, with a
QueryError, and no fragment is created. -/
theorem init_rejects_invalid_attributes (env : Env) (schema : ArraySchema)
    (metadata : List String) (mode : QueryMode) (sub : Option (List Nat))
    (attrs : List (Option String)) (sizes : List Nat)
    (h : (∃ a ∈ attrs, a = none ∨ ∃ s, a = some s ∧
            constants.name_max_len < s.length) ∨
         Query.has_duplicates (attrs.map fun a => a.getD "") = true) :
    (Query.init env schema metadata mode sub (some attrs) sizes).1.isQueryError
      = true ∧
    (Query.init env schema metadata mode sub (some attrs) sizes).2.fragments
      = [] := by
  have hsa : ∃ msg, Query.set_attributes schema mode (some attrs) =
      (Status.QueryError msg, []) := by
    simp only [Query.set_attributes]
    cases hb : Query.buildAttrVec attrs with
    | none => exact ⟨_, rfl⟩
    | some v =>
        obtain ⟨hv, hall⟩ := buildAttrVec_some attrs v hb
        have hdup : Query.has_duplicates v = true := by
          rcases h with ⟨a, ha, hbad⟩ | hdup
          · obtain ⟨s, hs, hle⟩ := hall a ha
            rcases hbad with rfl | ⟨t, rfl, hlen⟩
            · exact absurd hs (by simp)
            · injection hs with hs
              subst hs
              omega
          · rw [hv]
            exact hdup
        simp only [hdup, if_true]
        exact ⟨_, rfl⟩
  obtain ⟨msg, hsa⟩ := hsa
  unfold Query.init
  rw [hsa]
  simp [status_ok_queryError, status_isQueryError_true]

/-- Witness for C8 at a concrete duplicate attribute list. -/
theorem init_rejects_invalid_attributes_witness :
    ((∃ a ∈ ([some "a1", some "a1"] : List (Option String)), a = none ∨
        ∃ s, a = some s ∧ constants.name_max_len < s.length) ∨
      Query.has_duplicates (([some "a1", some "a1"] :
        List (Option String)).map fun a => a.getD "") = true) ∧
    (Query.init envOk schemaA [] QueryMode.WRITE none
      (some [some "a1", some "a1"]) []).1.isQueryError = true :=
  ⟨Or.inr (by decide),
   (init_rejects_invalid_attributes envOk schemaA [] QueryMode.WRITE none
     [some "a1", some "a1"] [] (Or.inr (by decide))).1⟩

theorem clear_fragments_spec (s : QueryState) :
    (Query.clear_fragments s).fragments = [] ∧
    ∀ f ∈ (Query.clear_fragments s).finalizedFragments,
      f ∈ s.finalizedFragments ∨ f.finalized = true := by
  refine ⟨rfl, ?_⟩
  intro f hf
  unfold Query.clear_fragments at hf
  simp only [List.mem_append] at hf
  rcases hf with hf | hf
  · exact Or.inl hf
  · right
    obtain ⟨g, _, hg⟩ := List.mem_map.mp hf
    rw [← hg]

theorem write_default_finalized (env : Env) (q : QueryState) :
    (Query.write_default env q).2.finalizedFragments =
      q.finalizedFragments := by
  unfold Query.write_default
  by_cases hw : is_write_mode q.mode
  · cases hf : q.fragments with
    | nil =>
        by_cases hn : Query.new_fragment_name q env = "" <;>
          by_cases hi : env.fragmentInit.ok <;>
            by_cases hfw : env.fragmentWrite.ok <;>
              simp [hw, hf, hn, hi, hfw, Query.dispatchHead]
    | cons f rest =>
        by_cases hfw : env.fragmentWrite.ok <;>
          simp [hw, hf, hfw, Query.dispatchHead]
  · simp [hw]

theorem write_default_dispatch (e : Env) (s : QueryState) (fr : Fragment)
    (hf : s.fragments = [fr]) (hok : (Query.write_default e s).1.ok = true) :
    (Query.write_default e s).2.fragments =
      [⟨fr.name, fr.finalized, fr.writes + 1⟩] := by
  unfold Query.write_default at hok ⊢
  by_cases hw : is_write_mode s.mode
  · simp only [hw, hf] at hok ⊢
    by_cases hfw : e.fragmentWrite.ok
    · simp [hfw, Query.dispatchHead, hf]
    · simp [hfw] at hok
  · simp [hw, status_ok_queryError] at hok

/-- C6: a successful write submission in a mode other than WRITE
finalizes and releases its fragments before returning, leaving the query
with zero fragments; in WRITE mode the submission leaves the single
fragment held, un-finalized, with one more dispatched write. -/
theorem write_submission_finalizes (env : Env) (q : QueryState) :
    ((q.mode = .WRITE_UNSORTED ∨ q.mode = .WRITE_SORTED_COL ∨
      q.mode = .WRITE_SORTED_ROW) →
      (Query.write env q).1.ok = true →
      (Query.write env q).2.fragments = [] ∧
      ∀ f ∈ (Query.write env q).2.finalizedFragments,
        f ∈ q.finalizedFragments ∨ f.finalized = true) ∧
    (q.mode = .WRITE →
      (Query.write env q).1.ok = true →
      ∀ fr, q.fragments = [fr] →
        (Query.write env q).2.fragments =
          [⟨fr.name, fr.finalized, fr.writes + 1⟩]) := by
  constructor
  · intro hm hok
    rcases hm with hm | hm | hm
    · by_cases hwd : (Query.write_default env q).1.ok
      · have hw2 : Query.write env q =
            (Status.Ok, Query.clear_fragments (Query.write_default env q).2) := by
          unfold Query.write
          simp [hm, hwd]
        rw [hw2]
        obtain ⟨h1, h2⟩ := clear_fragments_spec (Query.write_default env q).2
        refine ⟨h1, ?_⟩
        intro f hf2
        rcases h2 f hf2 with hl | hr
        · rw [write_default_finalized] at hl
          exact Or.inl hl
        · exact Or.inr hr
      · exfalso
        have hw2 : Query.write env q = Query.write_default env q := by
          unfold Query.write
          simp [hm, hwd]
        rw [hw2] at hok
        exact hwd hok
    · by_cases hsw : env.sortedWriteStatus.ok
      · have hw2 : Query.write env q = (Status.Ok, Query.clear_fragments q) := by
          unfold Query.write
          simp [hm, hsw]
        rw [hw2]
        exact clear_fragments_spec q
      · exfalso
        have hw2 : Query.write env q = (env.sortedWriteStatus, q) := by
          unfold Query.write
          simp [hm, hsw]
        rw [hw2] at hok
        exact hsw hok
    · by_cases hsw : env.sortedWriteStatus.ok
      · have hw2 : Query.write env q = (Status.Ok, Query.clear_fragments q) := by
          unfold Query.write
          simp [hm, hsw]
        rw [hw2]
        exact clear_fragments_spec q
      · exfalso
        have hw2 : Query.write env q = (env.sortedWriteStatus, q) := by
          unfold Query.write
          simp [hm, hsw]
        rw [hw2] at hok
        exact hsw hok
  · intro hm hok fr hf
    by_cases hwd : (Query.write_default env q).1.ok
    · have hw2 : Query.write env q = (Status.Ok, (Query.write_default env q).2) := by
        unfold Query.write
        simp [hm, hwd]
      rw [hw2]
      exact write_default_dispatch env q fr hf hwd
    · exfalso
      have hw2 : Query.write env q = Query.write_default env q := by
        unfold Query.write
        simp [hm, hwd]
      rw [hw2] at hok
      exact hwd hok

/-- Witness for C6 at a concrete unsorted write submission. -/
theorem write_submission_finalizes_witness :
    (qUnsortedOne.mode = QueryMode.WRITE_UNSORTED ∨
     qUnsortedOne.mode = QueryMode.WRITE_SORTED_COL ∨
     qUnsortedOne.mode = QueryMode.WRITE_SORTED_ROW) ∧
    (Query.write envOk qUnsortedOne).1.ok = true ∧
    (Query.write envOk qUnsortedOne).2.fragments = [] :=
  ⟨Or.inl rfl, rfl,
   ((write_submission_finalizes envOk qUnsortedOne).1 (Or.inl rfl) rfl).1⟩

theorem write_default_keeps_names (e : Env) (s : QueryState)
    (h : s.fragments ≠ []) :
    (Query.write_default e s).2.fragments.map Fragment.name =
      s.fragments.map Fragment.name := by
  unfold Query.write_default
  by_cases hw : is_write_mode s.mode
  · cases hf : s.fragments with
    | nil => exact absurd hf h
    | cons f rest =>
        by_cases hfw : e.fragmentWrite.ok <;>
          simp [hw, hf, hfw, Query.dispatchHead]
  · simp [hw]

theorem write_default_frag_le_one (env : Env) (q : QueryState)
    (h : q.fragments.length ≤ 1) :
    (Query.write_default env q).2.fragments.length ≤ 1 := by
  unfold Query.write_default
  by_cases hw : is_write_mode q.mode
  · cases hf : q.fragments with
    | nil =>
        by_cases hn : Query.new_fragment_name q env = "" <;>
          by_cases hi : env.fragmentInit.ok <;>
            by_cases hfw : env.fragmentWrite.ok <;>
              simp [hw, hf, hn, hi, hfw, Query.dispatchHead]
    | cons f rest =>
        rw [hf] at h
        by_cases hfw : env.fragmentWrite.ok <;>
          simp [hw, hf, hfw, Query.dispatchHead] <;>
            simpa using h
  · simp [hw, h]

theorem write_frag_le_one (env : Env) (q : QueryState)
    (h : q.fragments.length ≤ 1) :
    (Query.write env q).2.fragments.length ≤ 1 := by
  unfold Query.write
  rcases hm : q.mode <;>
    by_cases hok1 : env.sortedWriteStatus.ok <;>
      by_cases hok2 : (Query.write_default env q).1.ok <;>
        simp [hm, hok1, hok2, Query.clear_fragments, status_ok_queryError] <;>
          first
            | exact h
            | exact write_default_frag_le_one env q h

theorem submitRun_le_one (envs : List Env) : ∀ q : QueryState,
    q.fragments.length ≤ 1 →
    (Query.submitRun envs q).fragments.length ≤ 1 := by
  induction envs with
  | nil => intro q h; exact h
  | cons e rest ih =>
      intro q h
      unfold Query.submitRun at ih ⊢
      rw [List.foldl_cons]
      exact ih _ (write_frag_le_one e q h)

theorem init_fragments_write (env : Env) (q : QueryState)
    (metadata : List String) (hw : is_write_mode q.mode = true)
    (hq : q.fragments = []) :
    (Query.init_fragments env q metadata).2.fragments.length ≤ 1 ∧
    (q.mode ≠ QueryMode.WRITE →
      (Query.init_fragments env q metadata).2 = q) := by
  unfold Query.init_fragments
  by_cases hm : q.mode = QueryMode.WRITE
  · rw [if_pos hm]
    refine ⟨?_, fun hne => absurd hm hne⟩
    unfold Query.new_fragment
    by_cases hn : Query.new_fragment_name q env = ""
    · simp [hn, hq]
    · by_cases hi : env.fragmentInit.ok
      · simp [hn, hi, hq]
      · simp [hn, hi, hq]
  · rw [if_neg hm]
    have hr : is_read_mode q.mode = false := by
      cases hmm : q.mode <;> simp_all [is_read_mode, is_write_mode]
    rw [hr]
    simp [hq]

theorem init_write_le_one (env : Env) (schema : ArraySchema)
    (metadata : List String) (mode : QueryMode) (sub : Option (List Nat))
    (attrs : Option (List (Option String))) (sizes : List Nat)
    (hw : is_write_mode mode = true) :
    (Query.init env schema metadata mode sub attrs
      sizes).2.fragments.length ≤ 1 ∧
    (mode ≠ QueryMode.WRITE →
      (Query.init env schema metadata mode sub attrs sizes).2.fragments
        = []) := by
  unfold Query.init
  by_cases h1 : (Query.set_attributes schema mode attrs).1.ok
  · simp only [h1, if_true]
    set q1 : QueryState :=
      { schema := schema, mode := mode, status := .INPROGRESS,
        attribute_ids := (Query.set_attributes schema mode attrs).2,
        subarray := Query.set_subarray schema sub,
        buffer_sizes := sizes, fragments := [], finalizedFragments := [],
        arsOverflow := false, asrsOverflow := false } with hq1
    have hmode : q1.mode = mode := rfl
    have hfr : q1.fragments = [] := rfl
    obtain ⟨hle, hid⟩ := init_fragments_write env q1 metadata
      (by rw [hmode]; exact hw) hfr
    by_cases h2 : (Query.init_fragments env q1 metadata).1.ok
    · rw [if_pos h2]
      refine ⟨hle, ?_⟩
      intro hne
      have h3 := hid (by rw [hmode]; exact hne)
      show (Query.init_fragments env q1 metadata).2.fragments = []
      rw [h3]
    · rw [if_neg h2]
      refine ⟨hle, ?_⟩
      intro hne
      have h3 := hid (by rw [hmode]; exact hne)
      rw [h3]
  · simp [h1]

/-- C3 counterexample: a WRITE-mode write query that receives no
submissions already holds one fragment, created by init itself, so its
fragment count is 1 and not 0. -/
theorem write_mode_init_creates_fragment :
    Query.fragment_num
      (Query.init envOk schemaA [] QueryMode.WRITE none none []).2 = 1 := by
  rfl

/-- C3 (amended): a write query creates at most one fragment across any
number of submissions and fragment_num is at most 1 after every write
operation; a new fragment is created by a submission only when the query
holds none, and every successful submission dispatches to the single
held fragment; a write query in a mode other than WRITE that receives no
submissions holds zero fragments, while in WRITE mode init itself
creates the single fragment before any submission. -/
theorem write_query_at_most_one_fragment (env : Env) (schema : ArraySchema)
    (metadata : List String) (mode : QueryMode) (sub : Option (List Nat))
    (attrs : Option (List (Option String))) (sizes : List Nat)
    (envs : List Env) (hw : is_write_mode mode = true) :
    Query.fragment_num (Query.submitRun envs
      (Query.init env schema metadata mode sub attrs sizes).2) ≤ 1 ∧
    (mode ≠ QueryMode.WRITE →
      Query.fragment_num
        (Query.init env schema metadata mode sub attrs sizes).2 = 0) ∧
    (∀ e (s : QueryState), s.fragments ≠ [] →
      (Query.write_default e s).2.fragments.map Fragment.name =
        s.fragments.map Fragment.name) ∧
    (∀ e (s : QueryState) fr, s.fragments = [fr] →
      (Query.write_default e s).1.ok = true →
      (Query.write_default e s).2.fragments =
        [⟨fr.name, fr.finalized, fr.writes + 1⟩]) := by
  obtain ⟨hle, hzero⟩ :=
    init_write_le_one env schema metadata mode sub attrs sizes hw
  refine ⟨?_, ?_, ?_, ?_⟩
  · exact submitRun_le_one envs _ hle
  · intro hne
    unfold Query.fragment_num
    rw [hzero hne]
    rfl
  · exact fun e s h => write_default_keeps_names e s h
  · exact fun e s fr hf hok => write_default_dispatch e s fr hf hok

/-- Witness for C3 (amended) at a concrete unsorted write query. -/
theorem write_query_at_most_one_fragment_witness :
    is_write_mode QueryMode.WRITE_UNSORTED = true ∧
    Query.fragment_num (Query.submitRun [envOk]
      (Query.init envOk schemaA [] QueryMode.WRITE_UNSORTED none none
        [4]).2) ≤ 1 :=
  ⟨by decide,
   (write_query_at_most_one_fragment envOk schemaA [] QueryMode.WRITE_UNSORTED
     none none [4] [envOk] (by decide)).1⟩

end TileDB

